import Mathlib

/-!
Shallow embedding of the arXiv scraping script in `src/arxiv.py` (function
`extrair_dados_arxiv_json`).  Strings are modelled through their character
lists, HTML structure through records of the texts the script reads, the
keyword model (KeyBERT) through an oracle function, and HTTP fetching
through an oracle from pagination offsets to page contents.  The pagination
loop is modelled with explicit fuel (the real loop runs until an empty page
or an error).
-/

set_option maxHeartbeats 1000000

namespace Arxiv

/-- A Python value stored in the per-article dict `dados_artigo`: the script
stores strings, lists of strings and ints. -/
inductive Valor where
  | str (s : String)
  | lista (xs : List String)
  | inteiro (n : Int)
  deriving DecidableEq

/-- One article record, modelling the Python dict `dados_artigo`
(`arxiv.py` line 60): an insertion-ordered association list. -/
abbrev Registro := List (String × Valor)

/-- The keyword model oracle: `kw_model.extract_keywords` returns an
ordered list of (phrase, score) pairs (`arxiv.py` line 86).  Scores are
opaque to the script (it discards them), so their type is irrelevant. -/
abbrev ModeloKw := String → List (String × Int)

/-- Python whitespace characters, as matched by `str.strip()` with no
argument and by the regex class in `re.sub` (ASCII fragment). -/
def pyEspaco (c : Char) : Bool :=
  c == ' ' || c == '\t' || c == '\n' || c == '\r' || c == '\x0b' || c == '\x0c'

/-- Python `str.strip()` on a character list: drop whitespace from both
ends. -/
def pyStripLista (l : List Char) : List Char :=
  ((l.dropWhile pyEspaco).reverse.dropWhile pyEspaco).reverse

/-- Python `s.strip()`. -/
def pyStrip (s : String) : String :=
  String.mk (pyStripLista s.data)

/-- Python `s.strip(c)` for a single character argument: drop that
character from both ends (used for `.strip(quote)` on line 120). -/
def pyStripChar (c : Char) (s : String) : String :=
  String.mk (((s.data.dropWhile (· == c)).reverse.dropWhile (· == c)).reverse)

/-- Helper for `re.sub` with a whitespace-run pattern: replace each maximal
run of whitespace by a single space.  The boolean records whether the
previous character belonged to a run already replaced. -/
def colapsaEspacos : Bool → List Char → List Char
  | _, [] => []
  | aposEspaco, c :: resto =>
    if pyEspaco c then
      if aposEspaco then colapsaEspacos true resto
      else ' ' :: colapsaEspacos true resto
    else c :: colapsaEspacos false resto

/-- Python `re.sub` of a whitespace-run pattern by a single space
(`arxiv.py` line 72). -/
def pySubEspacos (s : String) : String :=
  String.mk (colapsaEspacos false s.data)

/-- Python `s.replace(alvo, novo)` on character lists: replace every
non-overlapping occurrence left to right.  The fuel argument (instantiated
with the length of the subject) only makes the recursion structural; one
unit is spent per step and each step consumes at least one character, so
the fuel never runs out on the intended calls. -/
def trocarAux (alvo novo : List Char) : Nat → List Char → List Char
  | _, [] => []
  | 0, l => l
  | fuel + 1, c :: resto =>
    if alvo.isPrefixOf (c :: resto) then
      novo ++ trocarAux alvo novo fuel (resto.drop (alvo.length - 1))
    else
      c :: trocarAux alvo novo fuel resto

/-- Python `s.replace(alvo, novo)` (used with the labels on lines 70
and 120). -/
def trocar (alvo novo s : String) : String :=
  String.mk (trocarAux alvo.data novo.data s.data.length s.data)

/-- Helper for Python `s.split(sep)` with a one-character separator:
accumulates the current piece reversed. -/
def dividirAux (sep : Char) : List Char → List Char → List (List Char)
  | atual, [] => [atual.reverse]
  | atual, c :: resto =>
    if c == sep then atual.reverse :: dividirAux sep [] resto
    else dividirAux sep (c :: atual) resto

/-- Python `s.split(sep)` for a one-character separator (used with the
semicolon on line 107 and the comma on line 72). -/
def pyDividir (s : String) (sep : Char) : List String :=
  (dividirAux sep [] s.data).map String.mk

/-- Python `s.startswith(pre)` (line 80). -/
def pyComecaCom (s pre : String) : Bool :=
  pre.data.isPrefixOf s.data

/-- Python slicing `s[n:]` (line 81). -/
def pyDrop (s : String) (n : Nat) : String :=
  String.mk (s.data.drop n)

/-- Helper for Python `sub in s`: scan for a position where the target is a
prefix. -/
def contemAux (alvo : List Char) : List Char → Bool
  | [] => alvo.isEmpty
  | c :: resto => alvo.isPrefixOf (c :: resto) || contemAux alvo resto

/-- Python substring membership test `alvo in s` (line 119). -/
def pyContem (s alvo : String) : Bool :=
  contemAux alvo.data s.data

/-! ## The HTML inputs the script reads from one result block -/

/-- One `comments is-size-7` paragraph (`arxiv.py` line 114): the text of
its first inner `span`, when one exists (`p.find("span")`, line 118), and
the full paragraph text (`p.get_text()`, line 120). -/
structure Paragrafo where
  spanTexto : Option String
  texto : String
  deriving DecidableEq

/-- The texts the script reads from one `li.arxiv-result` block
(`arxiv.py` lines 59-121): the title paragraph text, the authors paragraph
text, the full-abstract span text, the texts of the primary and the
secondary category tag spans (lines 90 and 95, in document order), the
`is-size-7` metadata paragraph text, and the `comments is-size-7`
paragraphs. -/
structure Artigo where
  titulo : Option String
  autores : Option String
  abstractCompleto : Option String
  tagsPrimarias : List String
  tagsSecundarias : List String
  metadados : Option String
  comentarios : List Paragrafo
  deriving DecidableEq

/-! ## Field extraction (`arxiv.py` lines 59-124) -/

/-- Title field (lines 63-64): `title_tag.text.strip() if title_tag else
the sentinel`. -/
def tituloValor : Option String → Valor
  | some t => Valor.str (pyStrip t)
  | none => Valor.str "N/A"

/-- Author list (lines 70-72): remove the label, strip, collapse
whitespace runs, strip, split on commas, strip each piece. -/
def separarAutores (t : String) : List String :=
  (pyDividir (pyStrip (pySubEspacos (pyStrip (trocar "Authors:" "" t)))) ',').map pyStrip

/-- Authors field (lines 67-74): the split list when the authors paragraph
exists, otherwise the string sentinel. -/
def autoresValor : Option String → Valor
  | some t => Valor.lista (separarAutores t)
  | none => Valor.str "N/A"

/-- Abstract cleaning (lines 79-81): strip, then drop a leading
label prefix and strip again when present. -/
def limparAbstrato (t : String) : String :=
  let s := pyStrip t
  if pyComecaCom s "Abstract:" then pyStrip (pyDrop s "Abstract:".length) else s

/-- The string stored in the abstract field (lines 77-84). -/
def abstratoTexto (artigo : Artigo) : String :=
  match artigo.abstractCompleto with
  | some t => limparAbstrato t
  | none => "N/A"

/-- ASCII decimal digit, the embedding of the regex digit class on
line 107. -/
def ehDigito (c : Char) : Bool :=
  48 ≤ c.toNat && c.toNat ≤ 57

/-- Regex word character (letter, digit or underscore), used by the word
boundary in the pattern on line 107 (ASCII fragment). -/
def ehCaractereDePalavra (c : Char) : Bool :=
  c.isAlpha || ehDigito c || c == '_'

/-- Word boundary before a match position: start of string or a non-word
character right before. -/
def fronteiraAntes : Option Char → Bool
  | none => true
  | some c => !ehCaractereDePalavra c

/-- Word boundary after a match: end of string or a non-word character
right after. -/
def fronteiraDepois : List Char → Bool
  | [] => true
  | c :: _ => !ehCaractereDePalavra c

/-- Embedding of `re.search` with the year pattern of line 107: a token
of the digit 2, the digit 0 and two digits, delimited by word boundaries.
Positions are scanned left to right, so the leftmost match wins, and the
numeric value is the one `int` computes on the four matched digits. -/
def anoAux : Option Char → List Char → Option Nat
  | _, [] => none
  | prev, c1 :: resto =>
    match resto with
    | c2 :: c3 :: c4 :: resto2 =>
      if c1 == '2' && c2 == '0' && ehDigito c3 && ehDigito c4 &&
          fronteiraAntes prev && fronteiraDepois resto2 then
        some (2000 + 10 * (c3.toNat - 48) + (c4.toNat - 48))
      else anoAux (some c1) resto
    | _ => anoAux (some c1) resto

/-- First year token in a string (line 107). -/
def buscarAno (s : String) : Option Nat :=
  anoAux none s.data

/-- Normal form of the year field (lines 101-112): the first year token in
the metadata text before the first semicolon, or the sentinel. -/
def anoValor : Option String → Valor
  | none => Valor.str "N/A"
  | some texto =>
    match buscarAno ((pyDividir texto ';').headD "") with
    | some ano => Valor.inteiro ano
    | none => Valor.str "N/A"

/-- The test on line 119: the paragraph has an inner span whose text
contains the journal label. -/
def condJournal (p : Paragrafo) : Bool :=
  match p.spanTexto with
  | some s => pyContem s "Journal ref"
  | none => false

/-- The cleaning on line 120: remove the label occurrences, strip, strip
quote characters, strip. -/
def limparJournal (t : String) : String :=
  pyStrip (pyStripChar '"' (pyStrip (trocar "Journal ref:" "" t)))

/-- Normal form of the journal field: the loop on lines 116-121 overwrites
the field on every matching paragraph, so the surviving value comes from
the last matching paragraph (found here as the first match in the reversed
list), with the sentinel when no paragraph matches. -/
def journalUltimo (ps : List Paragrafo) : Valor :=
  match ps.reverse.find? condJournal with
  | some p => Valor.str (limparJournal p.texto)
  | none => Valor.str "N/A"

/-- The journal value described by the specification text: the first
matching paragraph.  Stated only to compare the spec against the code. -/
def journalPrimeiroEspec (ps : List Paragrafo) : Valor :=
  match ps.find? condJournal with
  | some p => Valor.str (limparJournal p.texto)
  | none => Valor.str "N/A"

/-! ## The record dict -/

/-- Python dict assignment on an insertion-ordered association list:
overwrite in place when the key exists, append otherwise. -/
def porChave (d : Registro) (k : String) (v : Valor) : Registro :=
  if d.any (fun par => par.1 == k) then
    d.map (fun par => if par.1 == k then (k, v) else par)
  else d ++ [(k, v)]

/-- Current value of the categories key, read by line 98 when appending the
secondary tags; the key always holds a list at that point, and the default
branch is unreachable there. -/
def lerCategorias (d : Registro) : List String :=
  match List.lookup "categorias" d with
  | some (Valor.lista xs) => xs
  | _ => []

/-- One step of the journal loop (lines 117-121). -/
def passoJournal (d : Registro) (p : Paragrafo) : Registro :=
  if condJournal p then porChave d "journal_revista" (Valor.str (limparJournal p.texto)) else d

/-- Processing of one result block (`arxiv.py` lines 59-124): build the
dict `dados_artigo` field by field in source order. -/
def processarArtigo (kw : ModeloKw) (artigo : Artigo) : Registro :=
  let dados1 := porChave [] "titulo" (tituloValor artigo.titulo)
  let dados2 := porChave dados1 "autores" (autoresValor artigo.autores)
  let dados3 := porChave dados2 "abstract" (Valor.str (abstratoTexto artigo))
  let dados4 := porChave dados3 "keywords" (Valor.lista ((kw (abstratoTexto artigo)).map Prod.fst))
  let dados5 := porChave dados4 "categorias" (Valor.lista [])
  let dados6 :=
    if artigo.tagsPrimarias.isEmpty then dados5
    else porChave dados5 "categorias"
      (Valor.lista (if artigo.tagsPrimarias.isEmpty then [] else artigo.tagsPrimarias.map pyStrip))
  let dados7 :=
    if artigo.tagsSecundarias.isEmpty then dados6
    else porChave dados6 "categorias"
      (Valor.lista (lerCategorias dados6 ++
        (if artigo.tagsSecundarias.isEmpty then [] else artigo.tagsSecundarias.map pyStrip)))
  let dados8 := porChave dados7 "ano" (Valor.str "N/A")
  let dados9 :=
    match artigo.metadados with
    | none => dados8
    | some texto =>
      match buscarAno ((pyDividir texto ';').headD "") with
      | some ano =>
        if ano = 0 then porChave dados8 "ano" (Valor.str "N/A")
        else porChave dados8 "ano" (Valor.inteiro ano)
      | none => porChave dados8 "ano" (Valor.str "N/A")
  let dados10 := porChave dados9 "journal_revista" (Valor.str "N/A")
  if artigo.comentarios.isEmpty then dados10
  else artigo.comentarios.foldl passoJournal dados10

/-- Normal form of the whole record: the seven fields with their values,
in insertion order. -/
def registroDe (kw : ModeloKw) (artigo : Artigo) : Registro :=
  [("titulo", tituloValor artigo.titulo),
   ("autores", autoresValor artigo.autores),
   ("abstract", Valor.str (abstratoTexto artigo)),
   ("keywords", Valor.lista ((kw (abstratoTexto artigo)).map Prod.fst)),
   ("categorias", Valor.lista (artigo.tagsPrimarias.map pyStrip ++ artigo.tagsSecundarias.map pyStrip)),
   ("ano", anoValor artigo.metadados),
   ("journal_revista", journalUltimo artigo.comentarios)]

/-! ## The pagination loop (`arxiv.py` lines 35-136) and the save step
(lines 139-150) -/

/-- One item of the `for artigo in artigos_na_pagina` loop (line 59): a
block that processes normally, or a block whose processing raises an
unexpected exception somewhere inside the loop body. -/
inductive Item where
  | bloco (artigo : Artigo)
  | falha
  deriving DecidableEq

/-- Outcome of `requests.get` plus `raise_for_status` plus parsing at one
offset (lines 42-49): either the parsed result blocks of the page, or a
transport failure (timeout, connection error, or an HTTP error status
raised on line 43). -/
inductive Busca where
  | pagina (itens : List Item)
  | erroTransporte
  deriving DecidableEq

/-- Why the `while True` loop stopped: the `break` on line 54 (empty
page), the `break` on line 133 (`requests.exceptions.RequestException`),
the `break` on line 136 (any other exception), or the fuel of the model
ran out before the script stopped. -/
inductive Motivo where
  | normal
  | erroRequisicao
  | erroInesperado
  | semCombustivel
  deriving DecidableEq

/-- The per-page `for` loop (lines 59-124): records are appended one by
one (line 124), so the records of the blocks processed before a raising
block survive; the boolean reports whether the page raised. -/
def processarPagina (kw : ModeloKw) : List Item → List Registro × Bool
  | [] => ([], false)
  | Item.falha :: _ => ([], true)
  | Item.bloco artigo :: resto =>
    match processarPagina kw resto with
    | (rs, erro) => (processarArtigo kw artigo :: rs, erro)

/-- The `while True` loop (lines 35-136), driven by a fetch oracle from
offsets to page outcomes.  Returns the records accumulated in
`todos_os_artigos`, the offsets requested in order, and the reason the
loop stopped.  The fuel only bounds the number of iterations of the
model. -/
def rodar (kw : ModeloKw) (busca : Nat → Busca) : Nat → Nat → List Registro × List Nat × Motivo
  | 0, _ => ([], [], Motivo.semCombustivel)
  | fuel + 1, start =>
    match busca start with
    | Busca.erroTransporte => ([], [start], Motivo.erroRequisicao)
    | Busca.pagina itens =>
      if itens = [] then ([], [start], Motivo.normal)
      else
        match processarPagina kw itens with
        | (recs, true) => (recs, [start], Motivo.erroInesperado)
        | (recs, false) =>
          match rodar kw busca fuel (start + 200) with
          | (recs2, offs2, m) => (recs ++ recs2, start :: offs2, m)

/-- Outcome of one run: the accumulated records, the requested offsets,
the stop reason, and the contents written to the output file (`none` when
the guard on line 139 skips the write because no record was
accumulated). -/
structure Resultado where
  artigos : List Registro
  offsets : List Nat
  motivo : Motivo
  salvo : Option (List Registro)
  deriving DecidableEq

/-- The whole script run (`extrair_dados_arxiv_json`): the loop starting
at offset 0 (line 26), followed by the save step of lines 139-150. -/
def extrair_dados_arxiv_json (kw : ModeloKw) (busca : Nat → Busca) (fuel : Nat) : Resultado :=
  match rodar kw busca fuel 0 with
  | (recs, offs, m) => ⟨recs, offs, m, if recs = [] then none else some recs⟩

/-! ## Dict lemmas -/

lemma mapaSemChave (k : String) (v : Valor) :
    ∀ d : Registro, d.any (fun par => par.1 == k) = false →
      d.map (fun par => if par.1 == k then (k, v) else par) = d := by
  intro d h
  induction d with
  | nil => rfl
  | cons par resto ih =>
    simp only [List.any_cons, Bool.or_eq_false_iff] at h
    rw [List.map_cons, ih h.2, h.1]
    simp

lemma qualquerChaveMapa (k : String) (v : Valor) :
    ∀ d : Registro, d.any (fun par => par.1 == k) = true →
      (d.map (fun par => if par.1 == k then (k, v) else par)).any (fun par => par.1 == k) = true := by
  intro d h
  induction d with
  | nil => simp at h
  | cons par resto ih =>
    simp only [List.any_cons, Bool.or_eq_true] at h
    rcases h with h | h
    · rw [List.map_cons, List.any_cons, h]
      simp
    · rw [List.map_cons, List.any_cons, ih h]
      simp

/-- Re-assigning the same key twice keeps only the second value. -/
lemma porChave_porChave (d : Registro) (k : String) (v w : Valor) :
    porChave (porChave d k v) k w = porChave d k w := by
  by_cases h : d.any (fun par => par.1 == k) = true
  · simp only [porChave, h, if_true]
    rw [if_pos (qualquerChaveMapa k v d h), List.map_map]
    apply List.map_congr_left
    intro par _
    by_cases hp : par.1 == k
    · simp [Function.comp, hp]
    · simp [Function.comp, hp]
  · simp only [Bool.not_eq_true] at h
    simp only [porChave, h, Bool.false_eq_true, if_false]
    have hap : (d ++ [(k, v)]).any (fun par => par.1 == k) = true := by
      simp [List.any_append]
    rw [if_pos hap, List.map_append, mapaSemChave k w d h]
    simp

/-- The journal loop of lines 116-121 keeps the value of the last matching
paragraph: the fold equals one assignment from the first match in the
reversed paragraph list. -/
lemma foldJournal_geral :
    ∀ (ps : List Paragrafo) (d : Registro),
      ps.foldl passoJournal d =
        match ps.reverse.find? condJournal with
        | some p => porChave d "journal_revista" (Valor.str (limparJournal p.texto))
        | none => d := by
  intro ps
  induction ps with
  | nil => intro d; rfl
  | cons p resto ih =>
    intro d
    simp only [List.foldl_cons, List.reverse_cons, List.find?_append]
    rw [ih]
    by_cases hc : condJournal p
    · cases hf : resto.reverse.find? condJournal with
      | none => simp [hf, List.find?_cons, hc, passoJournal, Option.or]
      | some q => simp [hf, passoJournal, hc, porChave_porChave, Option.or]
    · cases hf : resto.reverse.find? condJournal with
      | none => simp [hf, List.find?_cons, hc, passoJournal, Option.or]
      | some q => simp [hf, passoJournal, hc, Option.or]

/-! ## Year bounds -/

lemma anoAux_limites :
    ∀ (l : List Char) (prev : Option Char) (y : Nat),
      anoAux prev l = some y → 2000 ≤ y ∧ y ≤ 2099 := by
  intro l
  induction l with
  | nil => intro prev y h; simp [anoAux] at h
  | cons c1 resto ih =>
    intro prev y h
    rcases resto with _ | ⟨c2, resto2⟩
    · simp only [anoAux] at h
      exact ih (some c1) y h
    · rcases resto2 with _ | ⟨c3, resto3⟩
      · simp only [anoAux] at h
        exact ih (some c1) y h
      · rcases resto3 with _ | ⟨c4, resto4⟩
        · simp only [anoAux] at h
          exact ih (some c1) y h
        · simp only [anoAux] at h
          split at h
          · rename_i hcond
            simp only [Bool.and_eq_true, ehDigito, decide_eq_true_eq] at hcond
            obtain rfl : 2000 + 10 * (c3.toNat - 48) + (c4.toNat - 48) = y :=
              Option.some.inj h
            omega
          · exact ih (some c1) y h

lemma buscarAno_limites {s : String} {y : Nat} (h : buscarAno s = some y) :
    2000 ≤ y ∧ y ≤ 2099 :=
  anoAux_limites s.data none y h

/-! ## The record normal form -/

set_option maxHeartbeats 4000000 in
/-- The dict built by lines 59-124 always equals the seven-field normal
form: in particular the year branch with value 0 is dead (year tokens are
at least 2000) and the journal loop keeps the last matching paragraph. -/
theorem processarArtigo_eq (kw : ModeloKw) (artigo : Artigo) :
    processarArtigo kw artigo = registroDe kw artigo := by
  obtain ⟨ti, au, ab, tp, ts, md, co⟩ := artigo
  have hco : ∀ d : Registro,
      (if co.isEmpty then d else co.foldl passoJournal d) =
        match co.reverse.find? condJournal with
        | some p => porChave d "journal_revista" (Valor.str (limparJournal p.texto))
        | none => d := by
    intro d
    rcases co with _ | ⟨p1, co⟩
    · rfl
    · simp only [List.isEmpty_cons, Bool.false_eq_true, if_false]
      exact foldJournal_geral (p1 :: co) d
  simp only [processarArtigo, registroDe]
  rw [hco]
  simp only [journalUltimo]
  rcases tp with _ | ⟨t1, tp⟩ <;> rcases ts with _ | ⟨s1, ts⟩ <;>
    simp only [List.isEmpty_nil, List.isEmpty_cons, if_true, if_false, Bool.false_eq_true] <;>
  cases hf : co.reverse.find? condJournal <;>
  rcases md with _ | texto
  any_goals (simp only [porChave_porChave, List.map_nil, List.append_nil]; rfl)
  all_goals
    rcases hba : buscarAno ((pyDividir texto ';').headD "") with _ | ano
    · simp only [anoValor, hba, porChave_porChave, List.map_nil, List.append_nil]
      rfl
    · have h0 : ¬ ano = 0 := by
        have := buscarAno_limites hba
        omega
      simp only [anoValor, hba]
      rw [if_neg h0]
      simp only [porChave_porChave, List.map_nil, List.append_nil]
      rfl

/-! ## Loop lemmas -/

/-- The stop reason the fetch outcome at an offset forces on the loop: an
empty page breaks normally (line 54), a transport error breaks with the
handler of line 131, a page whose processing raises breaks with the
handler of line 134, and a nonempty page that processes cleanly does not
stop the loop. -/
def motivoParada (kw : ModeloKw) : Busca → Option Motivo
  | Busca.erroTransporte => some Motivo.erroRequisicao
  | Busca.pagina itens =>
    if itens = [] then some Motivo.normal
    else if (processarPagina kw itens).2 then some Motivo.erroInesperado else none

/-- If the fetch outcome at a requested offset forces a stop, then that
offset is the last one requested and the loop stops for that reason. -/
lemma rodar_parada (kw : ModeloKw) (busca : Nat → Busca) :
    ∀ (fuel start i off : Nat) (m0 : Motivo),
      (rodar kw busca fuel start).2.1[i]? = some off →
      motivoParada kw (busca off) = some m0 →
      i = (rodar kw busca fuel start).2.1.length - 1 ∧
        (rodar kw busca fuel start).2.2 = m0 := by
  intro fuel
  induction fuel with
  | zero =>
    intro start i off m0 h _
    simp [rodar] at h
  | succ fuel ih =>
    intro start i off m0 h hm
    cases hb : busca start with
    | erroTransporte =>
      simp only [rodar, hb] at h ⊢
      cases i with
      | zero =>
        simp only [List.getElem?_cons_zero, Option.some.injEq] at h
        subst h
        rw [hb] at hm
        simp [motivoParada] at hm
        simp [hm]
      | succ i => simp at h
    | pagina itens =>
      by_cases hi : itens = []
      · subst hi
        simp only [rodar, hb, if_pos rfl] at h ⊢
        cases i with
        | zero =>
          simp at h
          subst h
          rw [hb] at hm
          simp [motivoParada] at hm
          simp [hm]
        | succ i => simp at h
      · rcases hp : processarPagina kw itens with ⟨recs, erro⟩
        cases erro
        · rcases hr : rodar kw busca fuel (start + 200) with ⟨recs2, offs2, m⟩
          simp only [rodar, hb, if_neg hi, hp, hr] at h ⊢
          cases i with
          | zero =>
            simp only [List.getElem?_cons_zero, Option.some.injEq] at h
            subst h
            rw [hb] at hm
            simp [motivoParada, hi, hp] at hm
          | succ i =>
            simp only [List.getElem?_cons_succ] at h
            have hx : (rodar kw busca fuel (start + 200)).2.1[i]? = some off := by
              rw [hr]
              exact h
            have hih := ih (start + 200) i off m0 hx hm
            rw [hr] at hih
            have h1 : i = offs2.length - 1 := hih.1
            have h2 : m = m0 := hih.2
            have hlt : i < offs2.length := (List.getElem?_eq_some.mp h).1
            refine ⟨?_, h2⟩
            simp only [List.length_cons]
            omega
        · simp only [rodar, hb, if_neg hi, hp] at h ⊢
          cases i with
          | zero =>
            simp only [List.getElem?_cons_zero, Option.some.injEq] at h
            subst h
            rw [hb] at hm
            simp [motivoParada, hi, hp] at hm
            simp [hm]
          | succ i => simp at h

/-- Every offset the loop requests from `start` onwards is at least
`start`. -/
lemma rodar_offsets_ge (kw : ModeloKw) (busca : Nat → Busca) :
    ∀ (fuel start : Nat), ∀ o ∈ (rodar kw busca fuel start).2.1, start ≤ o := by
  intro fuel
  induction fuel with
  | zero =>
    intro start o ho
    simp [rodar] at ho
  | succ fuel ih =>
    intro start o ho
    cases hb : busca start with
    | erroTransporte =>
      simp [rodar, hb] at ho
      omega
    | pagina itens =>
      by_cases hi : itens = []
      · subst hi
        simp [rodar, hb] at ho
        omega
      · rcases hp : processarPagina kw itens with ⟨recs, erro⟩
        cases erro
        · rcases hr : rodar kw busca fuel (start + 200) with ⟨recs2, offs2, m⟩
          simp [rodar, hb, hi, hp, hr] at ho
          rcases ho with rfl | ho
          · omega
          · have := ih (start + 200) o (by rw [hr]; exact ho)
            omega
        · simp [rodar, hb, hi, hp] at ho
          omega

/-- The requested offsets are pairwise distinct: no offset is ever
requested twice (the loop never retries a page). -/
lemma rodar_offsets_nodup (kw : ModeloKw) (busca : Nat → Busca) :
    ∀ (fuel start : Nat), (rodar kw busca fuel start).2.1.Nodup := by
  intro fuel
  induction fuel with
  | zero =>
    intro start
    simp [rodar]
  | succ fuel ih =>
    intro start
    cases hb : busca start with
    | erroTransporte => simp [rodar, hb]
    | pagina itens =>
      by_cases hi : itens = []
      · subst hi
        simp [rodar, hb]
      · rcases hp : processarPagina kw itens with ⟨recs, erro⟩
        cases erro
        · rcases hr : rodar kw busca fuel (start + 200) with ⟨recs2, offs2, m⟩
          simp only [rodar, hb, if_neg hi, hp, hr, List.nodup_cons]
          constructor
          · intro hmem
            have := rodar_offsets_ge kw busca fuel (start + 200) start (by rw [hr]; exact hmem)
            omega
          · have := ih (start + 200)
            rw [hr] at this
            exact this
        · simp [rodar, hb, if_neg hi, hp]

/-- A page whose block list is some clean blocks followed by a raising
block yields exactly the records of the clean prefix, plus the error
flag. -/
lemma processarPagina_falha (kw : ModeloKw) :
    ∀ (blocos : List Artigo) (resto : List Item),
      processarPagina kw (blocos.map Item.bloco ++ Item.falha :: resto) =
        (blocos.map (processarArtigo kw), true) := by
  intro blocos resto
  induction blocos with
  | nil => rfl
  | cons a blocos ih => simp [processarPagina, ih]

/-- Every record a page fold produces is the processing of some block. -/
lemma processarPagina_mem (kw : ModeloKw) :
    ∀ (itens : List Item) (r : Registro), r ∈ (processarPagina kw itens).1 →
      ∃ a : Artigo, r = processarArtigo kw a := by
  intro itens
  induction itens with
  | nil =>
    intro r hr
    simp [processarPagina] at hr
  | cons item resto ih =>
    intro r hr
    cases item with
    | falha => simp [processarPagina] at hr
    | bloco a =>
      rcases hp : processarPagina kw resto with ⟨rs, e⟩
      simp [processarPagina, hp] at hr
      rcases hr with rfl | hr
      · exact ⟨a, rfl⟩
      · exact ih r (by rw [hp]; exact hr)

/-- Every record the loop accumulates is the processing of some block. -/
lemma rodar_mem (kw : ModeloKw) (busca : Nat → Busca) :
    ∀ (fuel start : Nat) (r : Registro), r ∈ (rodar kw busca fuel start).1 →
      ∃ a : Artigo, r = processarArtigo kw a := by
  intro fuel
  induction fuel with
  | zero =>
    intro start r hr
    simp [rodar] at hr
  | succ fuel ih =>
    intro start r hr
    cases hb : busca start with
    | erroTransporte => simp [rodar, hb] at hr
    | pagina itens =>
      by_cases hi : itens = []
      · subst hi
        simp [rodar, hb] at hr
      · rcases hp : processarPagina kw itens with ⟨recs, erro⟩
        cases erro
        · rcases hr2 : rodar kw busca fuel (start + 200) with ⟨recs2, offs2, m⟩
          simp [rodar, hb, hi, hp, hr2] at hr
          rcases hr with hr | hr
          · exact processarPagina_mem kw itens r (by rw [hp]; exact hr)
          · exact ih (start + 200) r (by rw [hr2]; exact hr)
        · simp [rodar, hb, hi, hp] at hr
          exact processarPagina_mem kw itens r (by rw [hp]; exact hr)

/-- When the page fetched at a requested offset raises during processing,
the records of the clean prefix of that page form a suffix of the final
accumulator: they were appended right before the loop broke. -/
lemma rodar_sufixo (kw : ModeloKw) (busca : Nat → Busca) :
    ∀ (fuel start i off : Nat) (itens : List Item),
      (rodar kw busca fuel start).2.1[i]? = some off →
      busca off = Busca.pagina itens →
      (processarPagina kw itens).2 = true →
      (processarPagina kw itens).1 <:+ (rodar kw busca fuel start).1 := by
  intro fuel
  induction fuel with
  | zero =>
    intro start i off itens h _ _
    simp [rodar] at h
  | succ fuel ih =>
    intro start i off itens h hoff herr
    cases hb : busca start with
    | erroTransporte =>
      simp only [rodar, hb] at h ⊢
      cases i with
      | zero =>
        simp at h
        subst h
        rw [hb] at hoff
        exact absurd hoff (by simp)
      | succ i => simp at h
    | pagina itens0 =>
      by_cases hi : itens0 = []
      · subst hi
        simp only [rodar, hb, if_pos rfl] at h ⊢
        cases i with
        | zero =>
          simp at h
          subst h
          rw [hb] at hoff
          obtain rfl : itens = [] := by
            have h2 := hoff.symm
            injection h2
          simp [processarPagina] at herr
        | succ i => simp at h
      · rcases hp : processarPagina kw itens0 with ⟨recs, erro⟩
        cases erro
        · rcases hr : rodar kw busca fuel (start + 200) with ⟨recs2, offs2, m⟩
          simp only [rodar, hb, if_neg hi, hp, hr] at h ⊢
          cases i with
          | zero =>
            simp at h
            subst h
            rw [hb] at hoff
            obtain rfl : itens = itens0 := by
              have h2 := hoff.symm
              injection h2
            rw [hp] at herr
            simp at herr
          | succ i =>
            simp only [List.getElem?_cons_succ] at h
            have hx : (rodar kw busca fuel (start + 200)).2.1[i]? = some off := by
              rw [hr]
              exact h
            have hsuf := ih (start + 200) i off itens hx hoff herr
            rw [hr] at hsuf
            have hsuf2 : (processarPagina kw itens).1 <:+ recs2 := hsuf
            exact hsuf2.trans (List.suffix_append recs recs2)
        · simp only [rodar, hb, if_neg hi, hp] at h ⊢
          cases i with
          | zero =>
            simp at h
            subst h
            rw [hb] at hoff
            obtain rfl : itens = itens0 := by
              have h2 := hoff.symm
              injection h2
            rw [hp]
          | succ i => simp at h

/-- The run result in terms of the loop result: the save step writes the
accumulator exactly when it is nonempty (lines 139-150). -/
lemma extrair_eq (kw : ModeloKw) (busca : Nat → Busca) (fuel : Nat) :
    extrair_dados_arxiv_json kw busca fuel =
      ⟨(rodar kw busca fuel 0).1, (rodar kw busca fuel 0).2.1, (rodar kw busca fuel 0).2.2,
        if (rodar kw busca fuel 0).1 = [] then none
        else some (rodar kw busca fuel 0).1⟩ := by
  unfold extrair_dados_arxiv_json
  rw [show rodar kw busca fuel 0 =
    ((rodar kw busca fuel 0).1, (rodar kw busca fuel 0).2.1, (rodar kw busca fuel 0).2.2) from rfl]

/-! ## Concrete instances used by the claim theorems -/

/-- A keyword model that returns no phrases on any input. -/
def kwVazio : ModeloKw := fun _ => []

/-- A keyword model, allowed by the collaborator contract, that returns a
phrase on the sentinel string. -/
def kwNA : ModeloKw := fun s => if s = "N/A" then [("na", 1)] else []

/-- A result block with every element absent. -/
def artigoVazio : Artigo := ⟨none, none, none, [], [], none, []⟩

/-- A result block with two comments paragraphs both carrying a journal
label. -/
def artigoDoisJournals : Artigo :=
  ⟨none, none, none, [], [], none,
    [⟨some "Journal ref", "Journal ref: A"⟩, ⟨some "Journal ref", "Journal ref: B"⟩]⟩

/-- A result block whose authors text is the one of the example in the spec. -/
def artigoAutores : Artigo :=
  ⟨none, some "Authors: A. Smith, B. Jones,  C. Lee", none, [], [], none, []⟩

/-- A result block whose metadata text is the one of the example in the spec. -/
def artigoMeta : Artigo :=
  ⟨none, none, none, [], [], some "Submitted on 3 Jan 2022; revised 10 Feb 2023", []⟩

/-- A result block with two primary tags and one secondary tag. -/
def artigoCats : Artigo :=
  ⟨none, none, none, ["cs.AI", "quant-ph"], ["physics.gen-ph"], none, []⟩

/-- Fetch oracle: one page with one block, then empty pages. -/
def buscaUmaPagina : Nat → Busca := fun n =>
  if n = 0 then Busca.pagina [Item.bloco artigoVazio] else Busca.pagina []

/-- Fetch oracle that fails on every request. -/
def buscaSoErro : Nat → Busca := fun _ => Busca.erroTransporte

/-- Fetch oracle: two pages of 200 blocks each, then a transport error on
the third request. -/
def buscaDuasPaginas : Nat → Busca := fun n =>
  if n < 400 then Busca.pagina (List.replicate 200 (Item.bloco artigoVazio))
  else Busca.erroTransporte

/-- Fetch oracle: a first page whose third block raises, then empty
pages. -/
def buscaFalhaNoMeio : Nat → Busca := fun n =>
  if n = 0 then Busca.pagina [Item.bloco artigoVazio, Item.bloco artigoVazio, Item.falha]
  else Busca.pagina []

/-! ## Claim theorems -/

/-- C1, counterexample: the code calls the keyword model on the literal
string N/A instead of skipping extraction, so a model that (as the
collaborator contract allows) returns a phrase for that input yields a
record whose abstract is the sentinel but whose keywords list is not
empty. -/
theorem c1_contraexemplo_keywords_na :
    artigoVazio.abstractCompleto = none ∧
    List.lookup "abstract" (processarArtigo kwNA artigoVazio) = some (Valor.str "N/A") ∧
    List.lookup "keywords" (processarArtigo kwNA artigoVazio) = some (Valor.lista ["na"]) ∧
    Valor.lista ["na"] ≠ Valor.lista [] := by
  decide

/-- C1, amended: when the abstract element is absent the abstract field is
the sentinel and the keywords field is exactly the list of phrases the
external model returns for the literal string N/A — the model is still
invoked, and the field is empty only when the model returns no phrases. -/
theorem c1_emendado_keywords_de_na (kw : ModeloKw) (artigo : Artigo)
    (h : artigo.abstractCompleto = none) :
    List.lookup "abstract" (processarArtigo kw artigo) = some (Valor.str "N/A") ∧
    List.lookup "keywords" (processarArtigo kw artigo) =
      some (Valor.lista ((kw "N/A").map Prod.fst)) := by
  rw [processarArtigo_eq]
  have habs : abstratoTexto artigo = "N/A" := by
    simp [abstratoTexto, h]
  simp [registroDe, List.lookup, habs]

/-- C1, witness for the amended claim at a concrete input. -/
theorem c1_emendado_testemunha :
    artigoVazio.abstractCompleto = none ∧
    (List.lookup "abstract" (processarArtigo kwVazio artigoVazio) = some (Valor.str "N/A") ∧
     List.lookup "keywords" (processarArtigo kwVazio artigoVazio) =
       some (Valor.lista ((kwVazio "N/A").map Prod.fst))) :=
  ⟨rfl, c1_emendado_keywords_de_na kwVazio artigoVazio rfl⟩

/-- C2, counterexample: with two matching comments paragraphs the code
keeps the LAST one (the loop on lines 116-121 has no break and overwrites
on every match), while the claim requires the FIRST. -/
theorem c2_contraexemplo_journal_primeiro :
    journalPrimeiroEspec artigoDoisJournals.comentarios = Valor.str "A" ∧
    List.lookup "journal_revista" (processarArtigo kwVazio artigoDoisJournals) =
      some (Valor.str "B") ∧
    Valor.str "B" ≠ Valor.str "A" := by
  decide

/-- C2, amended: the journal field is the full text of the LAST
comments-class paragraph whose inner label contains the journal label,
cleaned of the label, surrounding whitespace and quotes, with the sentinel
when no paragraph matches; the single-paragraph example of the claim still
holds. -/
theorem c2_emendado_journal_ultimo :
    (∀ (kw : ModeloKw) (artigo : Artigo),
      List.lookup "journal_revista" (processarArtigo kw artigo) =
        some (journalUltimo artigo.comentarios)) ∧
    journalUltimo [⟨some "Journal ref", "Journal ref: \"Phys. Rev. A 101, 2020\""⟩] =
      Valor.str "Phys. Rev. A 101, 2020" := by
  constructor
  · intro kw artigo
    rw [processarArtigo_eq]
    simp [registroDe, List.lookup]
  · decide

/-- C5: every record the run accumulates has exactly the seven keys, in
insertion order — no key is ever missing. -/
theorem c5_registro_tem_sete_campos (kw : ModeloKw) (busca : Nat → Busca) (fuel : Nat)
    (r : Registro) (h : r ∈ (extrair_dados_arxiv_json kw busca fuel).artigos) :
    r.map Prod.fst =
      ["titulo", "autores", "abstract", "keywords", "categorias", "ano", "journal_revista"] := by
  rw [extrair_eq] at h
  obtain ⟨a, rfl⟩ := rodar_mem kw busca fuel 0 r h
  rw [processarArtigo_eq]
  rfl

/-- C5, witness: a concrete run accumulating one record whose keys are the
seven expected ones. -/
theorem c5_testemunha :
    processarArtigo kwVazio artigoVazio ∈
      (extrair_dados_arxiv_json kwVazio buscaUmaPagina 5).artigos ∧
    (processarArtigo kwVazio artigoVazio).map Prod.fst =
      ["titulo", "autores", "abstract", "keywords", "categorias", "ano", "journal_revista"] :=
  ⟨by decide,
   c5_registro_tem_sete_campos kwVazio buscaUmaPagina 5 (processarArtigo kwVazio artigoVazio)
     (by decide)⟩

/-- C6: the authors field is the label-stripped, whitespace-collapsed,
comma-split, piece-trimmed list when the authors element exists, the
string sentinel when it is absent, and the example of the spec splits as
claimed. -/
theorem c6_autores (kw : ModeloKw) (artigo : Artigo) :
    (∀ t : String, artigo.autores = some t →
      List.lookup "autores" (processarArtigo kw artigo) =
        some (Valor.lista (separarAutores t))) ∧
    (artigo.autores = none →
      List.lookup "autores" (processarArtigo kw artigo) = some (Valor.str "N/A")) ∧
    separarAutores "Authors: A. Smith, B. Jones,  C. Lee" =
      ["A. Smith", "B. Jones", "C. Lee"] := by
  refine ⟨?_, ?_, by decide⟩
  · intro t ht
    rw [processarArtigo_eq]
    simp [registroDe, List.lookup, autoresValor, ht]
  · intro ht
    rw [processarArtigo_eq]
    simp [registroDe, List.lookup, autoresValor, ht]

/-- C6, witness: the example authors text yields the claimed list. -/
theorem c6_testemunha :
    artigoAutores.autores = some "Authors: A. Smith, B. Jones,  C. Lee" ∧
    List.lookup "autores" (processarArtigo kwVazio artigoAutores) =
      some (Valor.lista ["A. Smith", "B. Jones", "C. Lee"]) := by
  refine ⟨rfl, ?_⟩
  have h := (c6_autores kwVazio artigoAutores).1 "Authors: A. Smith, B. Jones,  C. Lee" rfl
  rw [h]
  decide

/-- C7: the year field comes from the first year token in the metadata
text before the first semicolon (an integer when one exists, the sentinel
otherwise or when the metadata paragraph is absent), and the example of the
spec yields 2022, not 2023. -/
theorem c7_ano (kw : ModeloKw) (artigo : Artigo) :
    (∀ t : String, artigo.metadados = some t →
      List.lookup "ano" (processarArtigo kw artigo) = some (anoValor (some t))) ∧
    (∀ (t : String) (y : Nat), buscarAno ((pyDividir t ';').headD "") = some y →
      anoValor (some t) = Valor.inteiro y) ∧
    (∀ t : String, buscarAno ((pyDividir t ';').headD "") = none →
      anoValor (some t) = Valor.str "N/A") ∧
    (artigo.metadados = none →
      List.lookup "ano" (processarArtigo kw artigo) = some (Valor.str "N/A")) ∧
    anoValor (some "Submitted on 3 Jan 2022; revised 10 Feb 2023") = Valor.inteiro 2022 := by
  refine ⟨?_, ?_, ?_, ?_, by decide⟩
  · intro t ht
    rw [processarArtigo_eq]
    simp [registroDe, List.lookup, ht]
  · intro t y hy
    simp only [anoValor, hy]
  · intro t hy
    simp only [anoValor, hy]
  · intro ht
    rw [processarArtigo_eq]
    simp [registroDe, List.lookup, anoValor, ht]

/-- C7, witness: the example metadata text yields year 2022. -/
theorem c7_testemunha :
    artigoMeta.metadados = some "Submitted on 3 Jan 2022; revised 10 Feb 2023" ∧
    List.lookup "ano" (processarArtigo kwVazio artigoMeta) = some (Valor.inteiro 2022) := by
  refine ⟨rfl, ?_⟩
  have h := (c7_ano kwVazio artigoMeta).1 "Submitted on 3 Jan 2022; revised 10 Feb 2023" rfl
  rw [h]
  decide

/-- C8: the categories field is always the stripped primary tag texts in
document order followed by the stripped secondary tag texts in document
order (so it is empty when no tag of either class exists), and the example of the
spec concatenates as claimed. -/
theorem c8_categorias :
    (∀ (kw : ModeloKw) (artigo : Artigo),
      List.lookup "categorias" (processarArtigo kw artigo) =
        some (Valor.lista
          (artigo.tagsPrimarias.map pyStrip ++ artigo.tagsSecundarias.map pyStrip))) ∧
    List.lookup "categorias" (processarArtigo kwVazio artigoCats) =
      some (Valor.lista ["cs.AI", "quant-ph", "physics.gen-ph"]) := by
  constructor
  · intro kw artigo
    rw [processarArtigo_eq]
    simp [registroDe, List.lookup]
  · decide

/-- C9: the year field is either the string sentinel or an integer between
2000 and 2099 — the year pattern only accepts four-digit tokens starting
with the digits 2 and 0. -/
theorem c9_ano_intervalo (kw : ModeloKw) (artigo : Artigo) :
    List.lookup "ano" (processarArtigo kw artigo) = some (Valor.str "N/A") ∨
    ∃ n : Int, List.lookup "ano" (processarArtigo kw artigo) = some (Valor.inteiro n) ∧
      2000 ≤ n ∧ n ≤ 2099 := by
  rw [processarArtigo_eq]
  have hl : List.lookup "ano" (registroDe kw artigo) = some (anoValor artigo.metadados) := by
    simp [registroDe, List.lookup]
  rw [hl]
  cases hmd : artigo.metadados with
  | none =>
    left
    simp [anoValor]
  | some t =>
    cases hba : buscarAno ((pyDividir t ';').headD "") with
    | none =>
      left
      simp only [anoValor, hba]
    | some y =>
      right
      refine ⟨y, by simp only [anoValor, hba], ?_, ?_⟩
      · exact_mod_cast (buscarAno_limites hba).1
      · exact_mod_cast (buscarAno_limites hba).2

/-- C3: a requested page that parses to zero result blocks is the last
request of the run and the loop stops through the normal break of
line 54 — no further request is issued after that page. -/
theorem c3_pagina_vazia_encerra (kw : ModeloKw) (busca : Nat → Busca) (fuel i off : Nat)
    (h : (extrair_dados_arxiv_json kw busca fuel).offsets[i]? = some off)
    (hvazia : busca off = Busca.pagina []) :
    i = (extrair_dados_arxiv_json kw busca fuel).offsets.length - 1 ∧
      (extrair_dados_arxiv_json kw busca fuel).motivo = Motivo.normal := by
  rw [extrair_eq] at h ⊢
  exact rodar_parada kw busca fuel 0 i off Motivo.normal h (by rw [hvazia]; rfl)

/-- C3, witness: a run whose second page is empty stops there. -/
theorem c3_testemunha :
    (extrair_dados_arxiv_json kwVazio buscaUmaPagina 5).offsets[1]? = some 200 ∧
    buscaUmaPagina 200 = Busca.pagina [] ∧
    (1 = (extrair_dados_arxiv_json kwVazio buscaUmaPagina 5).offsets.length - 1 ∧
     (extrair_dados_arxiv_json kwVazio buscaUmaPagina 5).motivo = Motivo.normal) :=
  ⟨by decide, by decide,
   c3_pagina_vazia_encerra kwVazio buscaUmaPagina 5 1 200 (by decide) (by decide)⟩

/-- C4, counterexample: a transport failure on the very first page leaves
the accumulator empty, and then the guard on line 139 skips the write — no
output file is produced, against the claim that the file is always
written with the records accumulated before the failure. -/
theorem c4_contraexemplo_sem_arquivo :
    buscaSoErro 0 = Busca.erroTransporte ∧
    (extrair_dados_arxiv_json kwVazio buscaSoErro 1).offsets = [0] ∧
    (extrair_dados_arxiv_json kwVazio buscaSoErro 1).motivo = Motivo.erroRequisicao ∧
    (extrair_dados_arxiv_json kwVazio buscaSoErro 1).salvo = none ∧
    (extrair_dados_arxiv_json kwVazio buscaSoErro 1).salvo ≠
      some (extrair_dados_arxiv_json kwVazio buscaSoErro 1).artigos := by
  decide

/-- C4, amended: a transport failure at a requested offset makes that
request the last one (the loop aborts, and no offset is ever requested
twice, so nothing is retried), the loop stops with the request-error
reason, and the output file holds exactly the previously accumulated
records when at least one exists — with no record accumulated, no file is
written at all. -/
theorem c4_emendado_erro_transporte_salva_parcial (kw : ModeloKw) (busca : Nat → Busca)
    (fuel i off : Nat)
    (h : (extrair_dados_arxiv_json kw busca fuel).offsets[i]? = some off)
    (herr : busca off = Busca.erroTransporte) :
    i = (extrair_dados_arxiv_json kw busca fuel).offsets.length - 1 ∧
    (extrair_dados_arxiv_json kw busca fuel).motivo = Motivo.erroRequisicao ∧
    (extrair_dados_arxiv_json kw busca fuel).offsets.Nodup ∧
    ((extrair_dados_arxiv_json kw busca fuel).artigos ≠ [] →
      (extrair_dados_arxiv_json kw busca fuel).salvo =
        some (extrair_dados_arxiv_json kw busca fuel).artigos) ∧
    ((extrair_dados_arxiv_json kw busca fuel).artigos = [] →
      (extrair_dados_arxiv_json kw busca fuel).salvo = none) := by
  rw [extrair_eq] at h ⊢
  have hpar := rodar_parada kw busca fuel 0 i off Motivo.erroRequisicao h (by rw [herr]; rfl)
  refine ⟨hpar.1, hpar.2, rodar_offsets_nodup kw busca fuel 0, ?_, ?_⟩
  · intro hne
    exact if_neg hne
  · intro he
    exact if_pos he

set_option maxRecDepth 100000 in
/-- C4, witness for the amended claim: two successful pages of 200 records
each followed by a transport failure on the third request yield a saved
output of exactly 400 records. -/
theorem c4_emendado_testemunha :
    (extrair_dados_arxiv_json kwVazio buscaDuasPaginas 5).offsets[2]? = some 400 ∧
    buscaDuasPaginas 400 = Busca.erroTransporte ∧
    (2 = (extrair_dados_arxiv_json kwVazio buscaDuasPaginas 5).offsets.length - 1 ∧
     (extrair_dados_arxiv_json kwVazio buscaDuasPaginas 5).motivo = Motivo.erroRequisicao ∧
     (extrair_dados_arxiv_json kwVazio buscaDuasPaginas 5).offsets.Nodup ∧
     ((extrair_dados_arxiv_json kwVazio buscaDuasPaginas 5).artigos ≠ [] →
       (extrair_dados_arxiv_json kwVazio buscaDuasPaginas 5).salvo =
         some (extrair_dados_arxiv_json kwVazio buscaDuasPaginas 5).artigos) ∧
     ((extrair_dados_arxiv_json kwVazio buscaDuasPaginas 5).artigos = [] →
       (extrair_dados_arxiv_json kwVazio buscaDuasPaginas 5).salvo = none)) ∧
    (extrair_dados_arxiv_json kwVazio buscaDuasPaginas 5).artigos.length = 400 ∧
    (extrair_dados_arxiv_json kwVazio buscaDuasPaginas 5).salvo =
      some (extrair_dados_arxiv_json kwVazio buscaDuasPaginas 5).artigos :=
  ⟨by decide, by decide,
   c4_emendado_erro_transporte_salva_parcial kwVazio buscaDuasPaginas 5 2 400
     (by decide) (by decide),
   by decide, by decide⟩

/-- C10: when the page fetched at a requested offset raises on its k-th
block, that request is the last one, the loop stops with the
unexpected-error reason, the records of the first k-1 blocks sit at the
end of the final accumulator (they were appended before the break), and
with k greater than 1 the output file is written and contains them. -/
theorem c10_falha_no_meio_da_pagina (kw : ModeloKw) (busca : Nat → Busca)
    (fuel i off : Nat) (blocos : List Artigo) (resto : List Item)
    (h : (extrair_dados_arxiv_json kw busca fuel).offsets[i]? = some off)
    (hpag : busca off = Busca.pagina (blocos.map Item.bloco ++ Item.falha :: resto)) :
    i = (extrair_dados_arxiv_json kw busca fuel).offsets.length - 1 ∧
    (extrair_dados_arxiv_json kw busca fuel).motivo = Motivo.erroInesperado ∧
    blocos.map (processarArtigo kw) <:+ (extrair_dados_arxiv_json kw busca fuel).artigos ∧
    (blocos ≠ [] →
      (extrair_dados_arxiv_json kw busca fuel).salvo =
        some (extrair_dados_arxiv_json kw busca fuel).artigos) := by
  rw [extrair_eq] at h ⊢
  have hm : motivoParada kw (busca off) = some Motivo.erroInesperado := by
    rw [hpag]
    simp [motivoParada, processarPagina_falha]
  have hpar := rodar_parada kw busca fuel 0 i off Motivo.erroInesperado h hm
  have hsuf : blocos.map (processarArtigo kw) <:+ (rodar kw busca fuel 0).1 := by
    have hs := rodar_sufixo kw busca fuel 0 i off
      (blocos.map Item.bloco ++ Item.falha :: resto) h hpag
      (by rw [processarPagina_falha])
    rw [processarPagina_falha] at hs
    exact hs
  refine ⟨hpar.1, hpar.2, hsuf, ?_⟩
  intro hne
  obtain ⟨t, ht⟩ := hsuf
  have hrecs : (rodar kw busca fuel 0).1 ≠ [] := by
    intro h0
    rw [h0] at ht
    have hnil := List.append_eq_nil.mp ht
    have : blocos = [] := by
      have := hnil.2
      simpa using this
    exact hne this
  exact if_neg hrecs

/-- C10, witness: a first page whose third block raises leaves the two
records built before the failure in the saved output. -/
theorem c10_testemunha :
    (extrair_dados_arxiv_json kwVazio buscaFalhaNoMeio 5).offsets[0]? = some 0 ∧
    buscaFalhaNoMeio 0 =
      Busca.pagina ([artigoVazio, artigoVazio].map Item.bloco ++ Item.falha :: []) ∧
    (0 = (extrair_dados_arxiv_json kwVazio buscaFalhaNoMeio 5).offsets.length - 1 ∧
     (extrair_dados_arxiv_json kwVazio buscaFalhaNoMeio 5).motivo = Motivo.erroInesperado ∧
     [artigoVazio, artigoVazio].map (processarArtigo kwVazio) <:+
       (extrair_dados_arxiv_json kwVazio buscaFalhaNoMeio 5).artigos ∧
     (([artigoVazio, artigoVazio] : List Artigo) ≠ [] →
       (extrair_dados_arxiv_json kwVazio buscaFalhaNoMeio 5).salvo =
         some (extrair_dados_arxiv_json kwVazio buscaFalhaNoMeio 5).artigos)) :=
  ⟨by decide, by decide,
   c10_falha_no_meio_da_pagina kwVazio buscaFalhaNoMeio 5 0 0 [artigoVazio, artigoVazio] []
     (by decide) (by decide)⟩

end Arxiv
